import Mathlib

/-!
Verification of the `flex` supervisor (`service.go`) against its
natural-language specification.

The embedding models Go `error` interface values, the `MultiError`
aggregator with its `Valid`, `Error` and `Unwrap` methods, and the
`Start` orchestration function.  `Start`'s goroutines, buffered channels
(`errC`, `runErrC`, `haltErrC`) and select loop are embedded as an
executable small-step machine driven by an explicit scheduler event
list, so that both universally-quantified properties (over all
schedules) and concrete interleavings can be stated and proved.
-/

namespace Flex

/-- A non-nil Go `error` value, identified by the text its `Error()`
method returns (`errors.New(msg)` / `fmt.Errorf`). -/
structure Err where
  msg : String
deriving DecidableEq, Repr

/-- A Go `error` interface value: `none` is Go's nil error. -/
abbrev GoError := Option Err

/-- Calling `.Error()` on a Go error value; `none` models the runtime
panic raised when the receiver is a nil error. -/
def GoError.errorString : GoError → Option String
  | none => none
  | some e => some e.msg

/-- `type MultiError struct{ Errors []error }` (service.go). The slice
may in principle hold nil error values, hence `List GoError`. -/
structure MultiError where
  Errors : List GoError
deriving DecidableEq, Repr

/-- `newMultiErrorFromChan` drains the closed channel `errC` (modelled by
the list of values it delivered, in order) and appends each non-nil
error: `for err := range errC { if err != nil { errors = append(...) } }`. -/
def newMultiErrorFromChan (errC : List GoError) : MultiError :=
  { Errors := errC.filter (fun e => e.isSome) }

/-- `func (e MultiError) Valid() bool { return len(e.Errors) > 0 }`. -/
def MultiError.Valid (e : MultiError) : Bool :=
  decide (0 < e.Errors.length)

/-- `func (e MultiError) Error() string`: switch on `len(e.Errors)`;
0 → sentinel, 1 → `e.Errors[0].Error()`, otherwise a message built from
`e.Errors[0].Error()` only.  The result is `none` when the rendering
would panic on a nil entry. -/
def MultiError.Error : MultiError → Option String
  | ⟨[]⟩ => some "there are no errors"
  | ⟨[e]⟩ => e.errorString
  | ⟨e :: _ :: _⟩ =>
      (e.errorString).map
        (fun s => "there are more than one errors, first error: " ++ s)

/-- The `errChain` accumulation loop of `MultiError.Unwrap`: collect
`err.Error()` for every entry, in order; `none` models the panic on a
nil entry. -/
def errChainStrings : List GoError → Option (List String)
  | [] => some []
  | e :: rest =>
      match e.errorString, errChainStrings rest with
      | some s, some l => some (s :: l)
      | _, _ => none

/-- `func (e MultiError) Unwrap() error`: nil when empty; the sole entry
directly when a singleton; otherwise
`fmt.Errorf("multiple errors: %v", strings.Join(errChain, "; next => "))`.
The outer `none` models the panic when building the chain hits a nil
entry. -/
def MultiError.Unwrap : MultiError → Option GoError
  | ⟨[]⟩ => some none
  | ⟨[e]⟩ => some e
  | ⟨e1 :: e2 :: rest⟩ =>
      (errChainStrings (e1 :: e2 :: rest)).map
        (fun chain =>
          some ⟨"multiple errors: " ++ String.intercalate "; next => " chain⟩)

/-- Behaviour of one worker, as the supervisor can observe it through
the `Worker` interface: `run` is the value `Run(ctx)` returns,
`runBlocks` says whether `Run` blocks until the shared context is
cancelled before returning, and `halt` is the value `Halt(ctx)`
returns. -/
structure WorkerSpec where
  run : GoError
  runBlocks : Bool
  halt : GoError
deriving DecidableEq, Repr

/-- One scheduler decision interleaving `Start`'s goroutines with its
select loop:
* `runFire i` — worker `i`'s `Run` returns; on a non-nil result the
  goroutine sends it to `runErrC` and calls `cancel()` (the send to the
  buffered channel and the immediately following `cancel` are taken as
  one atomic step, since no other goroutine acts between them on the
  state they touch in a way the select loop could distinguish);
* `parentCancel` — the caller's parent context is cancelled (or an
  interrupt/termination signal arrives): `ctx.Done()` becomes ready;
* `forwardRun` — the select loop takes the `runErrC` case and forwards
  one error to `errC`;
* `forwardHalt` — the select loop takes the `haltErrC` case; before the
  halt phase `haltErrC` is empty, and after it the loop has already
  broken, so this case can never transfer a value;
* `observeDone` — the select loop takes the `ctx.Done()` case: it
  spawns one `Halt` goroutine per worker, each sending its result to
  `haltErrC`, waits on the `sync.WaitGroup` barrier, and breaks out of
  the loop. -/
inductive Event where
  | runFire (i : Nat)
  | parentCancel
  | forwardRun
  | forwardHalt
  | observeDone
deriving DecidableEq, Repr

/-- State of `Start`'s shared context and buffered channels while the
select loop runs.  `pending` holds the indices of workers whose `Run`
goroutine has not yet returned; each channel is its buffered FIFO
content. -/
structure LoopState where
  cancelled : Bool
  pending : List Nat
  runErrC : List GoError
  haltErrC : List GoError
  errC : List GoError
deriving DecidableEq, Repr

/-- Effect of one scheduler event on the loop state.  A disabled event
(an index not pending, a blocking `Run` before cancellation, a receive
from an empty channel) is a no-op: the scheduler simply cannot take that
step.  `observeDone` is handled by `execLoop` itself. -/
def step (ws : List WorkerSpec) (s : LoopState) : Event → LoopState
  | .runFire i =>
      match ws[i]? with
      | none => s
      | some w =>
          if i ∈ s.pending ∧ (s.cancelled ∨ w.runBlocks = false) then
            match w.run with
            | none => { s with pending := s.pending.erase i }
            | some e =>
                { s with pending := s.pending.erase i,
                         runErrC := s.runErrC ++ [some e],
                         cancelled := true }
          else s
  | .parentCancel => { s with cancelled := true }
  | .forwardRun =>
      match s.runErrC with
      | [] => s
      | e :: rest => { s with runErrC := rest, errC := s.errC ++ [e] }
  | .forwardHalt =>
      match s.haltErrC with
      | [] => s
      | e :: rest => { s with haltErrC := rest, errC := s.errC ++ [e] }
  | .observeDone => s

/-- Run the select loop under a finite schedule.  The Boolean is true
when the loop took the `ctx.Done()` case (only enabled once the shared
context is cancelled) and broke out; remaining events are then unused,
mirroring `break loop`. -/
def execLoop (ws : List WorkerSpec) : LoopState → List Event → LoopState × Bool
  | s, [] => (s, false)
  | s, Event.observeDone :: rest =>
      if s.cancelled then (s, true) else execLoop ws s rest
  | s, e :: rest => execLoop ws (step ws s e) rest

/-- The value `Start` returns: a plain `errors.New` value for a
precondition violation, the aggregated `MultiError` when it is `Valid`,
or Go's nil. -/
inductive StartRet where
  | err (msg : String)
  | multi (me : MultiError)
  | nil
deriving DecidableEq, Repr

/-- Observable outcome of one invocation of `Start` under one schedule:
`retVal` is `none` while `Start` has not returned (the schedule ended
with the loop still blocked); `ctxDerived` records whether
`signal.NotifyContext` was reached; `spawned` lists the workers whose
`Run` goroutine was spawned, in spawn order; `halted` lists the workers
on which `Halt` was invoked, in the order their halt goroutines were
spawned; `finalCancelled` is the shared context's state when `Start`
returned (or when the schedule ran out). -/
structure StartExec where
  retVal : Option StartRet
  ctxDerived : Bool
  spawned : List Nat
  halted : List Nat
  finalCancelled : Bool
deriving DecidableEq, Repr

/-- `func Start(ctx context.Context, workers ...Worker) error`, embedded
over an explicit scheduler.  A nil worker in the variadic list is
`none`.  Mirrors service.go: the `len(workers) < 1` check; context
derivation; the spawn loop whose nil check runs just before each spawn;
the select loop; and, once `ctx.Done()` is taken, the halt phase — every
worker's `Halt` result is sent to `haltErrC` (never read again), `errC`
is closed, and the return value is computed from `errC`'s content
alone. -/
def Start (workers : List (Option WorkerSpec)) (sched : List Event) : StartExec :=
  if workers.length < 1 then
    { retVal := some (StartRet.err "need at least 1 worker"),
      ctxDerived := false, spawned := [], halted := [], finalCancelled := false }
  else
    match workers.findIdx? Option.isNone with
    | some k =>
        { retVal := some (StartRet.err "received a nil worker"),
          ctxDerived := true, spawned := List.range k, halted := [],
          finalCancelled := false }
    | none =>
        let ws := workers.filterMap id
        let s0 : LoopState :=
          { cancelled := false, pending := List.range ws.length,
            runErrC := [], haltErrC := [], errC := [] }
        let res := execLoop ws s0 sched
        if res.2 then
          let fin : LoopState :=
            { res.1 with haltErrC := res.1.haltErrC ++ ws.map WorkerSpec.halt }
          let merr := newMultiErrorFromChan fin.errC
          { retVal := some (if merr.Valid then StartRet.multi merr else StartRet.nil),
            ctxDerived := true, spawned := List.range workers.length,
            halted := List.range workers.length, finalCancelled := fin.cancelled }
        else
          { retVal := none, ctxDerived := true,
            spawned := List.range workers.length, halted := [],
            finalCancelled := res.1.cancelled }

/-- Building the `errChain` over entries that are all non-nil just
collects their messages. -/
lemma errChainStrings_map (msgs : List String) :
    errChainStrings (msgs.map (fun m => some ⟨m⟩)) = some msgs := by
  induction msgs with
  | nil => rfl
  | cons m rest ih =>
      simp [errChainStrings, GoError.errorString, ih]

/-- C10: `newMultiErrorFromChan` keeps exactly the non-nil errors of the
channel, in arrival order: the `Errors` slice is a sublist of the
delivered sequence, it has the same multiplicity as the channel for
every non-nil error, it never holds a nil error, and a channel
delivering only nil values yields an aggregator with `Valid() = false`. -/
theorem multiError_from_chan_filters (l : List GoError) :
    (newMultiErrorFromChan l).Errors.Sublist l ∧
    (∀ e : GoError, e.isSome →
        (newMultiErrorFromChan l).Errors.count e = l.count e) ∧
    (∀ e ∈ (newMultiErrorFromChan l).Errors, e ≠ none) ∧
    ((∀ e ∈ l, e = none) → (newMultiErrorFromChan l).Valid = false) := by
  refine ⟨List.filter_sublist l, ?_, ?_, ?_⟩
  · intro e he
    induction l with
    | nil => rfl
    | cons a rest ih =>
        by_cases ha : a.isSome
        · simp [newMultiErrorFromChan, ha] at ih ⊢
          rcases Option.isSome_iff_exists.mp ha with ⟨x, rfl⟩
          by_cases hax : e = some x
          · subst hax
            simp [List.count_cons, ih]
          · simp [List.count_cons, hax, ih]
        · have hnone : a = none := Option.not_isSome_iff_eq_none.mp ha
          subst hnone
          have hen : e ≠ (none : GoError) := by
            intro h
            rw [h] at he
            simp [Option.isSome] at he
          simp [newMultiErrorFromChan, List.count_cons, hen] at ih ⊢
          exact ih
  · intro e he
    have := List.of_mem_filter he
    intro h
    subst h
    simp [Option.isSome] at this
  · intro hall
    have : l.filter (fun e => e.isSome) = [] := by
      apply List.filter_eq_nil_iff.mpr
      intro a ha
      rw [hall a ha]
      simp [Option.isSome]
    simp [newMultiErrorFromChan, MultiError.Valid, this]

/-- Closed instance of `multiError_from_chan_filters` at a concrete
channel content. -/
theorem multiError_from_chan_filters_witness :
    (∀ e : GoError, e.isSome →
        (newMultiErrorFromChan [none, some ⟨"a"⟩, none]).Errors.count e
          = [none, some ⟨"a"⟩, none].count e) ∧
    (∀ e ∈ (newMultiErrorFromChan [none, some ⟨"a"⟩, none]).Errors, e ≠ none) :=
  ⟨(multiError_from_chan_filters [none, some ⟨"a"⟩, none]).2.1,
   (multiError_from_chan_filters [none, some ⟨"a"⟩, none]).2.2.1⟩

/-- C9: `Valid()` is true iff at least one error was collected; the
empty aggregator has `Valid() = false`, renders the "no errors"
sentinel, and its unwrap chain is nil. -/
theorem valid_iff_nonempty (me : MultiError) :
    (me.Valid = true ↔ 1 ≤ me.Errors.length) ∧
    (MultiError.Valid ⟨[]⟩ = false) ∧
    (MultiError.Error ⟨[]⟩ = some "there are no errors") ∧
    (MultiError.Unwrap ⟨[]⟩ = some none) := by
  refine ⟨?_, rfl, rfl, rfl⟩
  simp [MultiError.Valid, Nat.lt_iff_add_one_le]

/-- Closed instance of `valid_iff_nonempty` at a concrete aggregator. -/
theorem valid_iff_nonempty_witness :
    (MultiError.Valid ⟨[some ⟨"a"⟩]⟩ = true
      ↔ 1 ≤ (MultiError.mk [some ⟨"a"⟩]).Errors.length) ∧
    MultiError.Valid ⟨[]⟩ = false :=
  ⟨(valid_iff_nonempty ⟨[some ⟨"a"⟩]⟩).1, (valid_iff_nonempty ⟨[]⟩).2.1⟩

/-- C7: `Error()` renders the "no errors" sentinel for zero errors, the
sole error's message verbatim for one, and for two or more a
multiple-errors message built from the first error's message alone — the
rendering is the same whatever the remaining entries are, so none of
their messages is inlined. -/
theorem error_rendering_cases :
    (MultiError.Error ⟨[]⟩ = some "there are no errors") ∧
    (∀ m : String, MultiError.Error ⟨[some ⟨m⟩]⟩ = some m) ∧
    (∀ (m : String) (e : GoError) (rest : List GoError),
        MultiError.Error ⟨some ⟨m⟩ :: e :: rest⟩ =
          some ("there are more than one errors, first error: " ++ m)) := by
  refine ⟨rfl, fun m => rfl, fun m e rest => rfl⟩

/-- Closed instance of `error_rendering_cases`: the two-error rendering
shows only the first message, for two different tails. -/
theorem error_rendering_cases_witness :
    MultiError.Error ⟨[some ⟨"a"⟩, some ⟨"b"⟩]⟩
      = some ("there are more than one errors, first error: " ++ "a") ∧
    MultiError.Error ⟨[some ⟨"a"⟩, some ⟨"c"⟩, some ⟨"d"⟩]⟩
      = some ("there are more than one errors, first error: " ++ "a") :=
  ⟨error_rendering_cases.2.2 "a" (some ⟨"b"⟩) [],
   error_rendering_cases.2.2 "a" (some ⟨"c"⟩) [some ⟨"d"⟩]⟩

/-- C6 counterexample: with collected errors "a" and "b", the
synthesized unwrap error's message is "multiple errors: a; next => b" —
it is not the plain join of the two texts with the claimed separator
" ; next => " (the code joins with "; next => ", no space before the
semicolon, and prefixes "multiple errors: "). -/
theorem unwrap_separator_counterexample :
    MultiError.Unwrap ⟨[some ⟨"a"⟩, some ⟨"b"⟩]⟩
      = some (some ⟨"multiple errors: a; next => b"⟩) ∧
    "multiple errors: a; next => b" ≠ "a" ++ " ; next => " ++ "b" := by
  constructor
  · rfl
  · decide

/-- C6 (amended): `Unwrap` returns nil for zero collected errors, the
sole entry directly for one, and for two or more a synthesized error
whose message is "multiple errors: " followed by every collected error's
text joined with the separator "; next => ", preserving collection
order. -/
theorem unwrap_joined_chain (msgs : List String) :
    (MultiError.Unwrap ⟨[]⟩ = some none) ∧
    (∀ e : GoError, MultiError.Unwrap ⟨[e]⟩ = some e) ∧
    (2 ≤ msgs.length →
        MultiError.Unwrap ⟨msgs.map (fun m => some ⟨m⟩)⟩ =
          some (some ⟨"multiple errors: "
                        ++ String.intercalate "; next => " msgs⟩)) := by
  refine ⟨rfl, fun e => rfl, ?_⟩
  intro hlen
  match msgs with
  | m1 :: m2 :: rest =>
      show MultiError.Unwrap ⟨some ⟨m1⟩ :: some ⟨m2⟩ ::
              rest.map (fun m => some ⟨m⟩)⟩ = _
      rw [MultiError.Unwrap]
      have hc : errChainStrings (some ⟨m1⟩ :: some ⟨m2⟩ ::
                  rest.map (fun m => some (Err.mk m)))
          = some (m1 :: m2 :: rest) := by
        have := errChainStrings_map (m1 :: m2 :: rest)
        simpa using this
      rw [hc]
      rfl

/-- Closed instance of `unwrap_joined_chain` with three collected
errors. -/
theorem unwrap_joined_chain_witness :
    2 ≤ (["a", "b", "c"] : List String).length ∧
    MultiError.Unwrap ⟨(["a", "b", "c"] : List String).map (fun m => some ⟨m⟩)⟩
      = some (some ⟨"multiple errors: "
                      ++ String.intercalate "; next => " ["a", "b", "c"]⟩) :=
  ⟨by decide, (unwrap_joined_chain ["a", "b", "c"]).2.2 (by decide)⟩

/-- A worker list with no nil entry passes the nil scan, whatever the
running index of the scan is. -/
lemma findIdx_isNone_map_some_aux (ws : List WorkerSpec) (i : Nat) :
    List.findIdx? Option.isNone (ws.map some) i = none := by
  induction ws generalizing i with
  | nil => rfl
  | cons w rest ih => simp [List.findIdx?, ih]

/-- A worker list with no nil entry passes the nil scan. -/
lemma findIdx_isNone_map_some (ws : List WorkerSpec) :
    (ws.map some).findIdx? Option.isNone = none :=
  findIdx_isNone_map_some_aux ws 0

/-- Stripping the `Option` wrappers from an all-non-nil worker list. -/
lemma filterMap_id_map_some (ws : List WorkerSpec) :
    (ws.map some).filterMap id = ws := by
  induction ws with
  | nil => rfl
  | cons w rest ih => simp [ih]

/-- The loop state just after all `Run` goroutines were spawned:
context not cancelled, every worker pending, all channels empty. -/
def initState (ws : List WorkerSpec) : LoopState :=
  { cancelled := false, pending := List.range ws.length,
    runErrC := [], haltErrC := [], errC := [] }

/-- Unfolding of `Start` on a non-empty, nil-free worker list: the
preconditions pass and the outcome is decided by the select loop. -/
lemma Start_run (ws : List WorkerSpec) (hne : ws ≠ []) (sched : List Event) :
    Start (ws.map some) sched =
      if (execLoop ws (initState ws) sched).2 then
        { retVal :=
            some (if (newMultiErrorFromChan
                        (execLoop ws (initState ws) sched).1.errC).Valid
              then StartRet.multi (newMultiErrorFromChan
                        (execLoop ws (initState ws) sched).1.errC)
              else StartRet.nil),
          ctxDerived := true, spawned := List.range ws.length,
          halted := List.range ws.length,
          finalCancelled := (execLoop ws (initState ws) sched).1.cancelled }
      else
        { retVal := none, ctxDerived := true,
          spawned := List.range ws.length, halted := [],
          finalCancelled := (execLoop ws (initState ws) sched).1.cancelled } := by
  have hlen : ¬ (ws.map some).length < 1 := by
    cases ws with
    | nil => exact absurd rfl hne
    | cons w rest => simp
  rw [Start, if_neg hlen, findIdx_isNone_map_some, filterMap_id_map_some]
  simp only [List.length_map, initState]

/-- The select loop only reports `ctx.Done()` taken when the shared
context is indeed cancelled at that moment. -/
lemma execLoop_done_cancelled (ws : List WorkerSpec) (evs : List Event)
    (s : LoopState) (h : (execLoop ws s evs).2 = true) :
    (execLoop ws s evs).1.cancelled = true := by
  induction evs generalizing s with
  | nil => simp [execLoop] at h
  | cons e rest ih =>
      cases e with
      | observeDone =>
          by_cases hc : s.cancelled
          · simp [execLoop, hc]
          · rw [execLoop] at h ⊢
            rw [if_neg hc] at h ⊢
            exact ih _ h
      | runFire i => exact ih _ (by simpa [execLoop] using h)
      | parentCancel => exact ih _ (by simpa [execLoop] using h)
      | forwardRun => exact ih _ (by simpa [execLoop] using h)
      | forwardHalt => exact ih _ (by simpa [execLoop] using h)

/-- C8: calling `Start` with an empty worker list fails the
`len(workers) < 1` precondition immediately: under every schedule it
returns the "need at least 1 worker" error, no context is derived and no
goroutine is spawned, no worker halted. -/
theorem empty_workers_precondition (sched : List Event) :
    Start [] sched =
      { retVal := some (StartRet.err "need at least 1 worker"),
        ctxDerived := false, spawned := [], halted := [],
        finalCancelled := false } := by
  rfl

/-- Closed instance of `empty_workers_precondition`. -/
theorem empty_workers_precondition_witness :
    (Start [] [Event.parentCancel]).retVal
      = some (StartRet.err "need at least 1 worker") ∧
    (Start [] [Event.parentCancel]).ctxDerived = false :=
  ⟨congrArg StartExec.retVal (empty_workers_precondition [Event.parentCancel]),
   congrArg StartExec.ctxDerived (empty_workers_precondition [Event.parentCancel])⟩

/-- C2 counterexample: for the two-element list whose second worker is
nil, `Start` does return the "received a nil worker" error, but the
first worker's `Run` goroutine has already been spawned when the nil is
detected — the violation is not detected before any goroutine is
spawned, and that worker's `Run` is invoked. -/
theorem nil_worker_spawn_counterexample :
    (Start [some ⟨none, true, none⟩, none] []).retVal
      = some (StartRet.err "received a nil worker") ∧
    (Start [some ⟨none, true, none⟩, none] []).spawned = [0] ∧
    (Start [some ⟨none, true, none⟩, none] []).spawned ≠ [] := by
  refine ⟨rfl, rfl, by decide⟩

/-- C2 (amended): a worker list containing a nil entry makes `Start`
return the "received a nil worker" error; the check runs inside the
sequential spawn loop, so `Run` goroutines are spawned exactly for the
workers preceding the first nil entry (none when the nil is first), and
no worker's `Halt` is ever invoked. -/
theorem nil_worker_detected_in_spawn_loop (workers : List (Option WorkerSpec))
    (k : Nat) (h : workers.findIdx? Option.isNone = some k)
    (sched : List Event) :
    Start workers sched =
      { retVal := some (StartRet.err "received a nil worker"),
        ctxDerived := true, spawned := List.range k, halted := [],
        finalCancelled := false } := by
  have hlen : ¬ workers.length < 1 := by
    cases workers with
    | nil => simp [List.findIdx?] at h
    | cons w rest => simp
  rw [Start, if_neg hlen, h]

/-- Closed instance of `nil_worker_detected_in_spawn_loop`: the nil
first, nothing spawned. -/
theorem nil_worker_detected_in_spawn_loop_witness :
    ([none, some ⟨none, true, none⟩] :
        List (Option WorkerSpec)).findIdx? Option.isNone = some 0 ∧
    (Start [none, some ⟨none, true, none⟩] []).spawned = List.range 0 :=
  ⟨by decide,
   congrArg StartExec.spawned
     (nil_worker_detected_in_spawn_loop [none, some ⟨none, true, none⟩] 0
       (by decide) [])⟩

/-- If no worker's `Run` ever returns a non-nil error, a scheduler step
never puts anything on any channel. -/
lemma step_channels_empty (ws : List WorkerSpec)
    (hws : ∀ w ∈ ws, w.run = none) (s : LoopState)
    (h1 : s.runErrC = []) (h2 : s.haltErrC = []) (h3 : s.errC = [])
    (e : Event) :
    (step ws s e).runErrC = [] ∧ (step ws s e).haltErrC = [] ∧
      (step ws s e).errC = [] := by
  cases e with
  | runFire i =>
      cases hget : ws[i]? with
      | none => simp [step, hget, h1, h2, h3]
      | some w =>
          have hw : w.run = none := hws w (List.getElem?_mem hget)
          by_cases hen : i ∈ s.pending ∧ (s.cancelled ∨ w.runBlocks = false)
          · simp [step, hget, hw, hen, h1, h2, h3]
          · simp [step, hget, hen, h1, h2, h3]
  | parentCancel => exact ⟨h1, h2, h3⟩
  | forwardRun => simp [step, h1, h2, h3]
  | forwardHalt => simp [step, h1, h2, h3]
  | observeDone => exact ⟨h1, h2, h3⟩

/-- If no worker's `Run` ever returns a non-nil error, all channels stay
empty through the whole select loop, under every schedule. -/
lemma execLoop_channels_empty (ws : List WorkerSpec)
    (hws : ∀ w ∈ ws, w.run = none) (evs : List Event) (s : LoopState)
    (h1 : s.runErrC = []) (h2 : s.haltErrC = []) (h3 : s.errC = []) :
    (execLoop ws s evs).1.runErrC = [] ∧
      (execLoop ws s evs).1.haltErrC = [] ∧
      (execLoop ws s evs).1.errC = [] := by
  induction evs generalizing s with
  | nil => exact ⟨h1, h2, h3⟩
  | cons e rest ih =>
      cases e with
      | observeDone =>
          by_cases hc : s.cancelled
          · simp [execLoop, hc, h1, h2, h3]
          · rw [execLoop, if_neg hc]
            exact ih s h1 h2 h3
      | runFire i =>
          have hstep := step_channels_empty ws hws s h1 h2 h3 (Event.runFire i)
          exact ih _ hstep.1 hstep.2.1 hstep.2.2
      | parentCancel =>
          have hstep := step_channels_empty ws hws s h1 h2 h3 Event.parentCancel
          exact ih _ hstep.1 hstep.2.1 hstep.2.2
      | forwardRun =>
          have hstep := step_channels_empty ws hws s h1 h2 h3 Event.forwardRun
          exact ih _ hstep.1 hstep.2.1 hstep.2.2
      | forwardHalt =>
          have hstep := step_channels_empty ws hws s h1 h2 h3 Event.forwardHalt
          exact ih _ hstep.1 hstep.2.1 hstep.2.2

/-- When no worker's `Run` returns a non-nil error, any return of
`Start` is nil (the empty aggregator is not `Valid`), with every worker
halted. -/
lemma start_silent_on_nil_runs (ws : List WorkerSpec) (hne : ws ≠ [])
    (hrun : ∀ w ∈ ws, w.run = none) (sched : List Event) (r : StartRet)
    (hr : (Start (ws.map some) sched).retVal = some r) :
    r = StartRet.nil ∧
      (Start (ws.map some) sched).halted = List.range ws.length := by
  rw [Start_run ws hne sched] at hr ⊢
  by_cases hdone : (execLoop ws (initState ws) sched).2 = true
  · have herrc := (execLoop_channels_empty ws hrun sched (initState ws)
      rfl rfl rfl).2.2
    rw [if_pos hdone] at hr ⊢
    simp only [herrc] at hr
    simp only [newMultiErrorFromChan, List.filter_nil, MultiError.Valid] at hr
    simp at hr
    exact ⟨hr.symm, rfl⟩
  · rw [if_neg hdone] at hr
    exact absurd hr (by simp)

/-- C4: under every schedule, on any non-empty nil-free worker list:
the halt phase never begins until the shared context is observed
cancelled (a non-empty halt trace implies cancellation); and whenever
`Start` returns, `Halt` has been invoked on every worker — those that
failed and those that never failed — exactly once each, with the
`sync.WaitGroup` barrier (the `ctx.Done()` branch completes every halt
before `errC` is closed and the result computed) reflected in the final
result being produced only in that branch. -/
theorem halt_phase_after_cancellation_barrier (ws : List WorkerSpec)
    (hne : ws ≠ []) (sched : List Event) :
    ((Start (ws.map some) sched).halted ≠ [] →
        (Start (ws.map some) sched).finalCancelled = true) ∧
    (∀ r, (Start (ws.map some) sched).retVal = some r →
        (Start (ws.map some) sched).halted = List.range ws.length ∧
        (∀ i, i < ws.length →
            (Start (ws.map some) sched).halted.count i = 1) ∧
        (Start (ws.map some) sched).finalCancelled = true) := by
  rw [Start_run ws hne sched]
  by_cases hdone : (execLoop ws (initState ws) sched).2 = true
  · have hcan := execLoop_done_cancelled ws sched (initState ws) hdone
    rw [if_pos hdone]
    refine ⟨fun _ => hcan, fun r hr => ⟨rfl, ?_, hcan⟩⟩
    intro i hi
    exact List.count_eq_one_of_mem (List.nodup_range _) (List.mem_range.mpr hi)
  · rw [if_neg hdone]
    exact ⟨fun h => absurd rfl h, fun r hr => absurd hr (by simp)⟩

/-- Closed instance of `halt_phase_after_cancellation_barrier`: one
failing worker, the schedule that forwards its error; all workers
halted exactly once and the context cancelled at return. -/
theorem halt_phase_after_cancellation_barrier_witness :
    (Start ([(⟨some ⟨"boom"⟩, false, none⟩ : WorkerSpec)].map some)
        [Event.runFire 0, Event.forwardRun, Event.observeDone]).halted
      = List.range 1 ∧
    (∀ i, i < 1 →
        (Start ([(⟨some ⟨"boom"⟩, false, none⟩ : WorkerSpec)].map some)
            [Event.runFire 0, Event.forwardRun, Event.observeDone]).halted.count i
          = 1) ∧
    (Start ([(⟨some ⟨"boom"⟩, false, none⟩ : WorkerSpec)].map some)
        [Event.runFire 0, Event.forwardRun, Event.observeDone]).finalCancelled
      = true :=
  (halt_phase_after_cancellation_barrier [⟨some ⟨"boom"⟩, false, none⟩]
      (by decide) [Event.runFire 0, Event.forwardRun, Event.observeDone]).2
    (StartRet.multi ⟨[some ⟨"boom"⟩]⟩) (by decide)

/-- C5: when every worker's `Run` blocks until cancellation and then
returns nil and every `Halt` returns nil, then under every schedule any
return of `Start` is nil with all workers halted, and the schedule
consisting of the parent context's cancellation followed by the loop
observing `ctx.Done()` does make `Start` return nil after halting every
worker: parent cancellation alone triggers the full clean shutdown. -/
theorem clean_shutdown_on_parent_cancel (ws : List WorkerSpec) (hne : ws ≠ [])
    (hw : ∀ w ∈ ws, w.runBlocks = true ∧ w.run = none ∧ w.halt = none)
    (sched : List Event) :
    (∀ r, (Start (ws.map some) sched).retVal = some r →
        r = StartRet.nil ∧
        (Start (ws.map some) sched).halted = List.range ws.length) ∧
    (Start (ws.map some) [Event.parentCancel, Event.observeDone]).retVal
        = some StartRet.nil ∧
    (Start (ws.map some) [Event.parentCancel, Event.observeDone]).halted
        = List.range ws.length := by
  have hrun : ∀ w ∈ ws, w.run = none := fun w h => (hw w h).2.1
  have hexec : execLoop ws (initState ws)
      [Event.parentCancel, Event.observeDone]
      = ({ initState ws with cancelled := true }, true) := rfl
  refine ⟨fun r hr => start_silent_on_nil_runs ws hne hrun sched r hr, ?_, ?_⟩
  · rw [Start_run ws hne, hexec]
    rfl
  · rw [Start_run ws hne, hexec]
    rfl

/-- Closed instance of `clean_shutdown_on_parent_cancel` with two
blocking workers. -/
theorem clean_shutdown_on_parent_cancel_witness :
    (Start (([⟨none, true, none⟩, ⟨none, true, none⟩] :
          List WorkerSpec).map some)
        [Event.parentCancel, Event.observeDone]).retVal
      = some StartRet.nil ∧
    (Start (([⟨none, true, none⟩, ⟨none, true, none⟩] :
          List WorkerSpec).map some)
        [Event.parentCancel, Event.observeDone]).halted = List.range 2 :=
  ⟨(clean_shutdown_on_parent_cancel [⟨none, true, none⟩, ⟨none, true, none⟩]
      (by decide) (by decide) []).2.1,
   (clean_shutdown_on_parent_cancel [⟨none, true, none⟩, ⟨none, true, none⟩]
      (by decide) (by decide) []).2.2⟩

/-- C1 is false of the code: halt-phase errors are always silently
dropped.  The only exit from the select loop is the `ctx.Done()` branch,
which sends every `Halt` result to `haltErrC`, waits on the barrier and
immediately breaks; nothing ever forwards `haltErrC` to `errC`
afterwards, so the aggregation reads `errC` without any halt outcome.
Concretely: one worker whose `Run` blocks until cancellation returning
nil and whose `Halt` returns the error "halt failed" — under every
schedule any return of `Start` is nil, and in particular the
parent-cancellation schedule halts the worker, receives its error on
`haltErrC`, and still returns nil. -/
theorem halt_error_silently_dropped :
    (∀ (sched : List Event) (r : StartRet),
        (Start [some ⟨none, true, some ⟨"halt failed"⟩⟩] sched).retVal
            = some r →
        r = StartRet.nil) ∧
    (Start [some ⟨none, true, some ⟨"halt failed"⟩⟩]
        [Event.parentCancel, Event.observeDone]).retVal
      = some StartRet.nil ∧
    (Start [some ⟨none, true, some ⟨"halt failed"⟩⟩]
        [Event.parentCancel, Event.observeDone]).halted = [0] := by
  refine ⟨?_, rfl, rfl⟩
  intro sched r hr
  have h := start_silent_on_nil_runs [⟨none, true, some ⟨"halt failed"⟩⟩]
    (by decide) (by intro w hmem; rw [List.mem_singleton] at hmem; subst hmem; rfl)
    sched r hr
  exact h.1

/-- Closed instance of `halt_error_silently_dropped`: its universally
quantified part applied at the concrete parent-cancellation schedule. -/
theorem halt_error_silently_dropped_witness :
    (Start [some ⟨none, true, some ⟨"halt failed"⟩⟩]
        [Event.parentCancel, Event.observeDone]).retVal
      = some StartRet.nil ∧
    StartRet.nil = StartRet.nil :=
  ⟨by decide,
   halt_error_silently_dropped.1 [Event.parentCancel, Event.observeDone]
     StartRet.nil (by decide)⟩

/-- C3 is schedule-dependent, hence false of the code as a universal
statement: with the single worker whose `Run` immediately returns the
error "run failed" (the repository's own test scenario), the schedule in
which the run goroutine's send-and-cancel completes before the
supervisor's select runs and the select then picks the ready
`ctx.Done()` case returns nil — the run error is left in `runErrC` and
dropped — while the schedule that forwards the error first returns the
aggregator rendering exactly "run failed".  The worker is halted exactly
once in both schedules. -/
theorem run_error_schedule_dependent :
    (Start [some ⟨some ⟨"run failed"⟩, false, none⟩]
        [Event.runFire 0, Event.observeDone]).retVal = some StartRet.nil ∧
    (Start [some ⟨some ⟨"run failed"⟩, false, none⟩]
        [Event.runFire 0, Event.forwardRun, Event.observeDone]).retVal
      = some (StartRet.multi ⟨[some ⟨"run failed"⟩]⟩) ∧
    MultiError.Error ⟨[some ⟨"run failed"⟩]⟩ = some "run failed" ∧
    (Start [some ⟨some ⟨"run failed"⟩, false, none⟩]
        [Event.runFire 0, Event.observeDone]).halted = [0] ∧
    (Start [some ⟨some ⟨"run failed"⟩, false, none⟩]
        [Event.runFire 0, Event.forwardRun, Event.observeDone]).halted = [0] := by
  refine ⟨by decide, by decide, rfl, by decide, by decide⟩

end Flex
